import Mathlib

/-
Verification of the whisper-burn transcription CLI (`src/bin/transcribe/main.rs`)
against its natural-language specification.

The driver code under src/ is embedded directly.  The core pipeline
(feature extractor, decoding loop, tokenizer) lives in the `whisper` library
crate, which is not part of the provided sources; those parts are modelled
from the specification, each such definition carrying a doc comment that
starts with "Modelled from the spec:".

Machine floating-point sample values are modelled by exact rationals (ℚ):
the claims under study concern which arithmetic expressions are computed
(scaling factors, pass-through) and control flow, not rounding behaviour.
-/

/-! ## Audio loading (`load_audio_waveform`, main.rs lines 32-58) -/

/-- `hound::SampleFormat`: the on-disk sample encoding of a WAV file. -/
inductive SampleFmt where
  | float
  | int
deriving DecidableEq

/-- The sample payload of a parsed WAV file: either IEEE-float samples
(modelled as rationals) or integer PCM samples. -/
inductive SampleData where
  | float (vals : List ℚ)
  | int (vals : List ℤ)
deriving DecidableEq

def SampleData.fmt : SampleData → SampleFmt
  | .float _ => .float
  | .int _ => .int

/-- A WAV file as exposed by `hound::WavReader` after a successful open:
the header fields of `reader.spec()` together with the decoded samples. -/
structure WavFile where
  channels : Nat
  sampleRate : Nat
  bitsPerSample : Nat
  samples : SampleData
deriving DecidableEq

/-- Ways `load_audio_waveform` can fail: `invalidAudioFormat` models the
two `assert_eq!` panics on sample rate and channel count (a Rust panic:
message to stderr, process exit code 101); `hound` models a
`hound::Error` propagated by `?`. -/
inductive LoadError where
  | invalidAudioFormat (msg : String)
  | hound (msg : String)
deriving DecidableEq

/-- `let max_int_val = 2_u32.pow(spec.bits_per_sample as u32 - 1) - 1;`
(main.rs line 45). -/
def maxIntVal (bits : Nat) : Nat := 2 ^ (bits - 1) - 1

/-- Embedding of `load_audio_waveform` (main.rs lines 32-58): asserts a
16 kHz sample rate and a single channel, then converts integer PCM
samples by dividing by `max_int_val` while float samples are collected
unchanged; returns the sample vector and the file's sample rate. -/
def load_audio_waveform (f : WavFile) : Except LoadError (List ℚ × Nat) :=
  if f.sampleRate ≠ 16000 then
    .error (.invalidAudioFormat ("The audio sample rate must be 16k."))
  else if f.channels ≠ 1 then
    .error (.invalidAudioFormat ("The audio must be single-channel."))
  else
    let floats : List ℚ :=
      match f.samples with
      | .float vs => vs
      | .int vs => vs.map (fun s : ℤ => (s : ℚ) / (maxIntVal f.bitsPerSample : ℚ))
    .ok (floats, f.sampleRate)

/-! ## The CLI driver (`main`, main.rs lines 74-146)

The effectful collaborators (file system, tokenizer construction, model
record loading, the library `waveform_to_text` call) are modelled as an
environment of oracles; `main` is a function from that environment to an
outcome: the ordered trace of observable events plus the process exit
code. -/

/-- The model configuration, per the spec's ModelConfig data model
(embedding dimension and head counts are irrelevant to the claims and
omitted; the two context bounds are what the pipeline observes). -/
structure WhisperConfig where
  maxAudioCtxLength : Nat
  maxTextCtxLength : Nat
  melBinCount : Nat
deriving DecidableEq

/-- An opaque loaded weight record (`DefaultRecorder::load` result). -/
def WeightRecord : Type := Nat

/-- A constructed model: a config together with the record loaded into it
(`config.init().load_record(record)`). -/
structure Whisper where
  config : WhisperConfig
  record : Nat
deriving DecidableEq

/-- Observable events of one program run, in order. -/
inductive Event where
  | printLn (s : String)
  | eprintLn (s : String)
  | openAudio (path : String)
  | loadTokenizer
  | loadConfig (path : String)
  | loadModel (path : String)
  | runTranscription
  | writeOutput (path : String) (text : String)
deriving DecidableEq

/-- The result of one program run: the event trace and the exit code. -/
structure Outcome where
  events : List Event
  exitCode : Nat
deriving DecidableEq

/-- The environment of out-of-scope collaborators `main` calls into. -/
structure Env where
  args : List String
  openWav : String → Except LoadError WavFile
  tokenizer : Except String Unit
  loadConfig : String → Except String WhisperConfig
  loadRecord : String → Except String Nat
  transcribe : List ℚ → Nat → Except String (String × List Nat)
  writeFile : String → String → Except String Unit

/-- Embedding of `load_whisper_model_file` (main.rs lines 66-70): loads a
record from `filename` and, on success, initializes the model from the
config and loads the record into it. -/
def load_whisper_model_file (env : Env) (config : WhisperConfig) (filename : String) :
    Except String Whisper :=
  (env.loadRecord filename).map (fun record => { config := config, record := record })

/-- The audio stage as `main` runs it: `hound` open of the WAV path
followed by `load_audio_waveform` validation and conversion. -/
def audioStage (env : Env) (path : String) : Except LoadError (List ℚ × Nat) :=
  match env.openWav path with
  | .error e => .error e
  | .ok f => load_audio_waveform f

/-- The usage message of main.rs line 88. -/
def usageMsg (prog : String) : String :=
  "Usage: " ++ prog ++ " <model name> <audio file> <transcription file>"

/-- Embedding of the program entry point `main` (main.rs lines 74-146; named `mainRun` because Lean reserves the name `main`), argument indices as in the
source: `model_name = args[1]`, `wav_file = args[2]`, `text_file = args[3]`. -/
def mainRun (env : Env) : Outcome :=
  if env.args.length < 4 then
    { events := [.eprintLn (usageMsg (env.args.getD 0 ""))], exitCode := 1 }
  else
    let model_name := env.args.getD 1 ""
    let wav_file := env.args.getD 2 ""
    let text_file := env.args.getD 3 ""
    let ev0 := [Event.printLn ("Loading waveform..."), Event.openAudio wav_file]
    match audioStage env wav_file with
    | .error (.invalidAudioFormat m) =>
      { events := ev0 ++ [.eprintLn m], exitCode := 101 }
    | .error (.hound m) =>
      { events := ev0 ++ [.eprintLn ("Failed to load audio file: " ++ m)], exitCode := 1 }
    | .ok (waveform, sample_rate) =>
      let ev1 := ev0 ++ [Event.loadTokenizer]
      match env.tokenizer with
      | .error e =>
        { events := ev1 ++ [.eprintLn ("Failed to load tokenizer: " ++ e)], exitCode := 1 }
      | .ok _ =>
        let cfgPath := model_name ++ ".cfg"
        let ev2 := ev1 ++ [Event.loadConfig cfgPath]
        match env.loadConfig cfgPath with
        | .error e =>
          { events := ev2 ++ [.eprintLn ("Failed to load whisper config: " ++ e)],
            exitCode := 1 }
        | .ok config =>
          let ev3 := ev2 ++ [Event.printLn ("Loading model..."), Event.loadModel model_name]
          match load_whisper_model_file env config model_name with
          | .error e =>
            { events := ev3 ++ [.eprintLn ("Failed to load whisper model file: " ++ e)],
              exitCode := 1 }
          | .ok _ =>
            let ev4 := ev3 ++ [Event.runTranscription]
            match env.transcribe waveform sample_rate with
            | .error e =>
              { events := ev4 ++ [.eprintLn ("Error during transcription: " ++ e)],
                exitCode := 1 }
            | .ok (text, _tokens) =>
              let ev5 := ev4 ++ [Event.writeOutput text_file text]
              match env.writeFile text_file text with
              | .error e =>
                { events := ev5 ++ [.eprintLn ("Error writing transcription file: " ++ e)],
                  exitCode := 1 }
              | .ok _ =>
                { events := ev5 ++ [Event.printLn ("Transcription finished.")], exitCode := 0 }

/-- Whether the five pipeline stages (audio load, tokenizer load, config
load, model load, transcription) all succeed in `env`; the write of the
output file is not one of the five. -/
def stagesOK (env : Env) : Bool :=
  match audioStage env (env.args.getD 2 "") with
  | .error _ => false
  | .ok (waveform, sample_rate) =>
    match env.tokenizer with
    | .error _ => false
    | .ok _ =>
      match env.loadConfig (env.args.getD 1 "" ++ ".cfg") with
      | .error _ => false
      | .ok config =>
        match load_whisper_model_file env config (env.args.getD 1 "") with
        | .error _ => false
        | .ok _ =>
          match env.transcribe waveform sample_rate with
          | .error _ => false
          | .ok _ => true

/-- The transcription stage's result, at the waveform the audio stage
produced (meaningful only when the audio stage succeeded). -/
def transcribeStage (env : Env) : Except String (String × List Nat) :=
  match audioStage env (env.args.getD 2 "") with
  | .error _ => .error ("")
  | .ok (waveform, sample_rate) => env.transcribe waveform sample_rate

/-! ## Feature extractor (spec §4.1; library code not under src/) -/

/-- Modelled from the spec: the Feature Extractor's framing constants
(fixed-size overlapping frames; the whisper family uses a 400-sample
window with a 160-sample hop at 16 kHz). -/
def frameSize : Nat := 400

/-- Modelled from the spec: the hop between consecutive analysis frames. -/
def hopSize : Nat := 160

/-- Modelled from the spec: "a short-time Fourier transform over
fixed-size overlapping frames" — the framing step, slicing the waveform
into overlapping windows of `frameSize` samples every `hopSize` samples. -/
def stftFrames (w : List ℚ) : List (List ℚ) :=
  if h : w.length < frameSize then []
  else (w.take frameSize) :: stftFrames (w.drop hopSize)
termination_by w.length
decreasing_by
  simp only [List.length_drop]
  simp only [frameSize, hopSize, not_lt] at *
  omega

/-- Modelled from the spec: "Pads with silence or truncates the time axis
to the model's fixed maximum audio context length" — frames beyond the
target are dropped, missing frames are filled with all-zero (silent)
mel columns of the configured bin count. -/
def padOrTruncate (cfg : WhisperConfig) (frames : List (List ℚ)) : List (List ℚ) :=
  frames.take cfg.maxAudioCtxLength ++
    List.replicate (cfg.maxAudioCtxLength - frames.length)
      (List.replicate cfg.melBinCount 0)

/-- Modelled from the spec: `extract(waveform, sample_rate) -> Spectrogram
| Error` (§4.1).  The mel filter-bank projection with log compression and
rescaling is inherently floating-point; it is taken as a parameter
`mel : List ℚ → List ℚ` mapping one frame to one mel column, since no
claim depends on the numeric values of a column.  Validation rejects a
sample rate other than 16000 or a channel count other than 1 with
`InvalidAudioFormat`; afterwards the framed, projected spectrogram is
padded or truncated to the fixed maximum audio context length. -/
def extract (cfg : WhisperConfig) (mel : List ℚ → List ℚ)
    (waveform : List ℚ) (sampleRate : Nat) (channelCount : Nat) :
    Except String (List (List ℚ)) :=
  if sampleRate ≠ 16000 ∨ channelCount ≠ 1 then
    .error ("InvalidAudioFormat")
  else
    .ok (padOrTruncate cfg ((stftFrames waveform).map mel))

/-! ## Decoding loop (spec §4.4; library code not under src/) -/

/-- Modelled from the spec: the first index of the largest value of a
logit vector — the greedy argmax baseline policy (first occurrence wins,
making the tie-break deterministic). -/
def argmaxIdx (l : List ℚ) : Nat :=
  go l 1 0 (l.headD 0)
where
  go : List ℚ → Nat → Nat → ℚ → Nat
    | [], _, best, _ => best
    | x :: xs, i, best, bestVal =>
      if bestVal < x then go xs (i + 1) i x else go xs (i + 1) best bestVal

/-- Modelled from the spec: the Emitting phase of the Decoding Loop state
machine (§4.4).  `next` is the policy choosing the next token from the
current sequence and a per-step value drawn from the environmental
randomness stream `rng` (greedy ignores it); each step appends exactly
one token; the loop stops when the chosen token is `eot` or the sequence
length has reached `maxLen`.  Returns the final sequence and the number
of Emitting steps taken. -/
def decodeLoop (next : List Nat → Nat → Nat) (rng : Nat → Nat)
    (eot maxLen : Nat) (seq : List Nat) : List Nat × Nat :=
  if h : maxLen ≤ seq.length then (seq, 0)
  else
    let t := next seq (rng seq.length)
    if t = eot then (seq ++ [t], 1)
    else
      let r := decodeLoop next rng eot maxLen (seq ++ [t])
      (r.1, r.2 + 1)
termination_by maxLen - seq.length
decreasing_by
  simp only [List.length_append, List.length_cons, List.length_nil, not_le] at *
  omega

/-- Modelled from the spec: the full Decoding Loop state machine: the Init
state seeds the sequence with the start-of-transcript token (one step),
then the Emitting phase runs to Done.  Returns the final TokenSequence
and the total step count (Init seed + Emitting steps). -/
def runDecoding (next : List Nat → Nat → Nat) (rng : Nat → Nat)
    (sot eot maxLen : Nat) : List Nat × Nat :=
  let r := decodeLoop next rng eot maxLen [sot]
  (r.1, r.2 + 1)

/-- Modelled from the spec: the greedy baseline policy — argmax over the
decoder's next-token distribution, ignoring the randomness stream. -/
def greedyPolicy (decodeStep : List Nat → List ℚ) : List Nat → Nat → Nat :=
  fun seq _ => argmaxIdx (decodeStep seq)

/-! ## Tokenizer integration (spec §4.5; library code not under src/) -/

/-- Modelled from the spec: the Vocabulary — an immutable mapping from
token id to subword string (as a finite association list) plus the closed
set of reserved special-token ids. -/
structure Vocabulary where
  entries : List (Nat × String)
  specials : List Nat

/-- Modelled from the spec: the reverse direction of the Vocabulary
mapping — the subword string of a token id, if the id is in range. -/
def lookupTok (v : Vocabulary) (i : Nat) : Option String :=
  (v.entries.find? (fun p => p.1 = i)).map Prod.snd

/-- Modelled from the spec: the Vocabulary's forward mapping — the token
id of a subword string, if the string is in the vocabulary. -/
def lookupId (v : Vocabulary) (s : String) : Option Nat :=
  (v.entries.find? (fun p => p.2 = s)).map Prod.fst

/-- Modelled from the spec: encoding a text, already split into subword
fragments, through the Vocabulary's forward mapping; fails on any
out-of-vocabulary fragment. -/
def encodeFragments (v : Vocabulary) : List String → Option (List Nat)
  | [] => some []
  | f :: fs =>
    match lookupId v f, encodeFragments v fs with
    | some i, some is => some (i :: is)
    | _, _ => none

/-- Modelled from the spec: mapping each remaining id through the
Vocabulary to its subword string; `none` signals an id outside the loaded
vocabulary range. -/
def mapTokens (v : Vocabulary) : List Nat → Option (List String)
  | [] => some []
  | i :: is =>
    match lookupTok v i, mapTokens v is with
    | some s, some ss => some (s :: ss)
    | _, _ => none

/-- Modelled from the spec: concatenation of the decoded subword strings. -/
def concatStrings : List String → String
  | [] => ""
  | s :: ss => s ++ concatStrings ss

/-- Modelled from the spec: `decode_to_text(token_sequence) -> string`
(§4.5): strips all special tokens, maps each remaining id through the
Vocabulary, concatenates, and fails with `UnknownTokenId` if an id falls
outside the vocabulary range. -/
def decode_to_text (v : Vocabulary) (seq : List Nat) : Except String String :=
  match mapTokens v (seq.filter (fun i => ! v.specials.contains i)) with
  | some ss => .ok (concatStrings ss)
  | none => .error ("UnknownTokenId")

/-! ## Concrete test fixtures (used by witness theorems) -/

/-- A well-formed 16 kHz mono float WAV file with no samples. -/
def wavGood : WavFile :=
  { channels := 1, sampleRate := 16000, bitsPerSample := 16, samples := .float [] }

/-- A 8 kHz mono WAV file: rejected by `load_audio_waveform`. -/
def wavBadRate : WavFile :=
  { channels := 1, sampleRate := 8000, bitsPerSample := 16, samples := .float [] }

/-- The configuration of the tiny model used in witnesses. -/
def cfgW : WhisperConfig :=
  { maxAudioCtxLength := 1500, maxTextCtxLength := 448, melBinCount := 80 }

/-- An environment in which every stage succeeds. -/
def envOK : Env :=
  { args := ["prog", "m", "a.wav", "out.txt"]
    openWav := fun _ => .ok wavGood
    tokenizer := .ok ()
    loadConfig := fun _ => .ok cfgW
    loadRecord := fun _ => .ok 0
    transcribe := fun _ _ => .ok ("hi", [50257])
    writeFile := fun _ _ => .ok () }

/-- Like `envOK` but the WAV file has an 8 kHz sample rate. -/
def envBadRate : Env := { envOK with openWav := fun _ => .ok wavBadRate }

/-- Like `envOK` but called with a single command-line argument. -/
def envUsage : Env := { envOK with args := ["prog"] }

/-- Like `envOK` but the transcription stage fails. -/
def envBadTrans : Env := { envOK with transcribe := fun _ _ => .error ("decode") }

/-- The vocabulary used by the tokenizer round-trip witness. -/
def vocabW : Vocabulary :=
  { entries := [(0, "hello"), (1, " world")], specials := [2] }

/-! ## Helper lemmas -/

/-- Reading an index below `n` is unaffected by truncating the list to its
first `n` elements. -/
lemma getD_take {α : Type} (l : List α) (n i : Nat) (d : α) (h : i < n) :
    (l.take n).getD i d = l.getD i d := by
  induction l generalizing n i with
  | nil => simp
  | cons x xs ih =>
    cases n with
    | zero => omega
    | succ n =>
      cases i with
      | zero => simp
      | succ i =>
        simp only [List.take_succ_cons, List.getD_cons_succ]
        exact ih n i (by omega)

/-- The Emitting phase takes at most `maxLen - seq.length` steps. -/
lemma decodeLoop_stepBound (next : List Nat → Nat → Nat) (rng : Nat → Nat)
    (eot maxLen : Nat) :
    ∀ (n : Nat) (seq : List Nat), maxLen - seq.length ≤ n →
      (decodeLoop next rng eot maxLen seq).2 ≤ maxLen - seq.length := by
  intro n
  induction n with
  | zero =>
    intro seq hn
    rw [decodeLoop]
    have hle : maxLen ≤ seq.length := by omega
    simp [hle]
  | succ n ih =>
    intro seq hn
    rw [decodeLoop]
    by_cases hle : maxLen ≤ seq.length
    · simp [hle]
    · rw [dif_neg hle]
      by_cases ht : next seq (rng seq.length) = eot
      · simp [ht]
        omega
      · simp only [ht, if_false]
        have hrec := ih (seq ++ [next seq (rng seq.length)])
          (by simp only [List.length_append, List.length_cons, List.length_nil]; omega)
        simp only [List.length_append, List.length_cons, List.length_nil] at hrec
        omega

/-- Under the greedy policy, the Emitting phase ignores the randomness
stream entirely. -/
lemma decodeLoop_greedy_rng (decodeStep : List Nat → List ℚ) (rng₁ rng₂ : Nat → Nat)
    (eot maxLen : Nat) :
    ∀ (n : Nat) (seq : List Nat), maxLen - seq.length ≤ n →
      decodeLoop (greedyPolicy decodeStep) rng₁ eot maxLen seq =
        decodeLoop (greedyPolicy decodeStep) rng₂ eot maxLen seq := by
  intro n
  induction n with
  | zero =>
    intro seq hn
    have hle : maxLen ≤ seq.length := by omega
    rw [decodeLoop, dif_pos hle, decodeLoop, dif_pos hle]
  | succ n ih =>
    intro seq hn
    by_cases hle : maxLen ≤ seq.length
    · rw [decodeLoop, dif_pos hle, decodeLoop, dif_pos hle]
    · rw [decodeLoop, dif_neg hle, decodeLoop, dif_neg hle]
      simp only [greedyPolicy]
      by_cases ht : argmaxIdx (decodeStep seq) = eot
      · simp [ht]
      · simp only [ht, if_false]
        rw [ih (seq ++ [argmaxIdx (decodeStep seq)])
          (by simp only [List.length_append, List.length_cons, List.length_nil]; omega)]

/-- If the forward Vocabulary mapping sends `s` to id `i` and token ids
are pairwise distinct, the reverse mapping sends `i` back to `s`. -/
lemma lookup_roundtrip (v : Vocabulary) (hnd : (v.entries.map Prod.fst).Nodup)
    (s : String) (i : Nat) (h : lookupId v s = some i) : lookupTok v i = some s := by
  unfold lookupId at h
  cases hfind : v.entries.find? (fun p => p.2 = s) with
  | none => rw [hfind] at h; simp at h
  | some p =>
    rw [hfind] at h
    simp at h
    have hps : p.2 = s := by simpa using List.find?_some hfind
    have hpmem : p ∈ v.entries := List.mem_of_find?_eq_some hfind
    unfold lookupTok
    cases hfind2 : v.entries.find? (fun q => q.1 = i) with
    | none =>
      exfalso
      have := List.find?_eq_none.mp hfind2 p hpmem
      simp [h] at this
    | some q =>
      have hqi : q.1 = i := by simpa using List.find?_some hfind2
      have hqmem : q ∈ v.entries := List.mem_of_find?_eq_some hfind2
      have hqp : q = p := List.inj_on_of_nodup_map hnd hqmem hpmem (by rw [hqi, h])
      simp [hqp, hps]

/-! ## Claim theorems -/

/-- C4: for every audio context (every decoder step function and policy)
the Decoding Loop terminates within `max_text_context_length + 1` steps
(the Init seed step plus the Emitting steps); its definition is by
well-founded recursion, so it never loops indefinitely. -/
theorem decoding_loop_step_bound (next : List Nat → Nat → Nat) (rng : Nat → Nat)
    (sot eot maxLen : Nat) :
    (runDecoding next rng sot eot maxLen).2 ≤ maxLen + 1 := by
  show (decodeLoop next rng eot maxLen [sot]).2 + 1 ≤ maxLen + 1
  have h := decodeLoop_stepBound next rng eot maxLen maxLen [sot] (by simp)
  simp only [List.length_cons, List.length_nil] at h
  omega

/-- C5: greedy decoding is deterministic — for any decoder step function
(audio context and weights fixed) two runs of the decoding loop over
different environmental randomness streams produce identical
TokenSequences. -/
theorem greedy_decoding_deterministic (decodeStep : List Nat → List ℚ)
    (rng₁ rng₂ : Nat → Nat) (sot eot maxLen : Nat) :
    runDecoding (greedyPolicy decodeStep) rng₁ sot eot maxLen =
      runDecoding (greedyPolicy decodeStep) rng₂ sot eot maxLen := by
  unfold runDecoding
  rw [decodeLoop_greedy_rng decodeStep rng₁ rng₂ eot maxLen maxLen [sot] (by simp)]

/-- C6: for every valid 16 kHz mono waveform of any length, `extract`
succeeds and produces a spectrogram whose time dimension equals the
model's fixed maximum audio context length. -/
theorem extract_fixed_time_dimension (cfg : WhisperConfig) (mel : List ℚ → List ℚ)
    (waveform : List ℚ) :
    ∃ s, extract cfg mel waveform 16000 1 = .ok s ∧
      s.length = cfg.maxAudioCtxLength := by
  refine ⟨padOrTruncate cfg ((stftFrames waveform).map mel), ?_, ?_⟩
  · simp [extract]
  · simp only [padOrTruncate, List.length_append, List.length_take, List.length_replicate]
    omega

/-- C8: whenever `load_audio_waveform` returns successfully, the sample
rate it returns equals 16000. -/
theorem load_success_rate_16k (f : WavFile) (w : List ℚ) (sr : Nat)
    (h : load_audio_waveform f = .ok (w, sr)) : sr = 16000 := by
  unfold load_audio_waveform at h
  split at h
  · exact absurd h (by simp)
  · split at h
    · exact absurd h (by simp)
    · rename_i hrate _
      simp only [Except.ok.injEq, Prod.mk.injEq] at h
      rw [← h.2]
      exact not_ne_iff.mp hrate

/-- Witness for C8: a concrete successfully loaded 16 kHz mono file. -/
theorem load_success_rate_16k_witness :
    load_audio_waveform wavGood = .ok ([], 16000) ∧ (16000 : Nat) = 16000 :=
  ⟨rfl, load_success_rate_16k wavGood [] 16000 rfl⟩

/-- C7: tokenizer round-trip — encoding a text (split into fragments that
are all in the vocabulary, whose ids are ordinary, non-special ids) via
the Vocabulary's forward mapping and decoding the resulting ids with
`decode_to_text` reproduces the original text. -/
theorem tokenizer_roundtrip (v : Vocabulary) (frags : List String) (ids : List Nat)
    (hnd : (v.entries.map Prod.fst).Nodup)
    (henc : encodeFragments v frags = some ids)
    (hspec : ∀ i ∈ ids, i ∉ v.specials) :
    decode_to_text v ids = .ok (concatStrings frags) := by
  induction frags generalizing ids with
  | nil =>
    simp only [encodeFragments, Option.some.injEq] at henc
    subst henc
    simp [decode_to_text, mapTokens, concatStrings]
  | cons f fs ih =>
    unfold encodeFragments at henc
    cases hf : lookupId v f with
    | none => rw [hf] at henc; simp at henc
    | some i =>
      rw [hf] at henc
      cases hrest : encodeFragments v fs with
      | none => rw [hrest] at henc; simp at henc
      | some is =>
        rw [hrest] at henc
        simp only [Option.some.injEq] at henc
        subst henc
        have hi : i ∉ v.specials := hspec i (by simp)
        have his : ∀ j ∈ is, j ∉ v.specials := fun j hj => hspec j (by simp [hj])
        have hdec := ih is hrest his
        unfold decode_to_text at hdec ⊢
        have hfilter : (i :: is).filter (fun j => ! v.specials.contains j) =
            i :: is.filter (fun j => ! v.specials.contains j) := by
          simp [List.filter_cons, hi]
        rw [hfilter]
        unfold mapTokens
        rw [lookup_roundtrip v hnd f i hf]
        cases hm : mapTokens v (is.filter (fun j => ! v.specials.contains j)) with
        | none => rw [hm] at hdec; simp at hdec
        | some ss =>
          rw [hm] at hdec
          simp only [Except.ok.injEq] at hdec
          simp only [Except.ok.injEq, concatStrings]
          rw [hdec]

/-- Witness for C7: a concrete two-fragment text round-trips through the
concrete vocabulary `vocabW`. -/
theorem tokenizer_roundtrip_witness :
    decode_to_text vocabW [0, 1] = .ok ("hello world") :=
  tokenizer_roundtrip vocabW ["hello", " world"] [0, 1] (by decide) (by decide)
    (by decide)

/-- C3: for a successfully loaded audio file, integer PCM samples are
scaled by the format's maximum magnitude — a `b`-bit integer sample `s`
maps to `s / (2 ^ (b - 1) - 1)` — so (for in-range samples of a format
of at least 2 bits) every value lies in `[-(2^(b-1))/(2^(b-1)-1), 1]`,
a range approximately `[-1, 1]`; floating-point samples pass through
unchanged. -/
theorem pcm_scaling (f : WavFile) (hr : f.sampleRate = 16000) (hc : f.channels = 1) :
    (∀ vs, f.samples = .int vs →
      load_audio_waveform f =
        .ok (vs.map (fun s : ℤ => (s : ℚ) / ((2 ^ (f.bitsPerSample - 1) - 1 : ℕ) : ℚ)),
             16000) ∧
      (2 ≤ f.bitsPerSample →
        ∀ s ∈ vs, -(2 ^ (f.bitsPerSample - 1) : ℤ) ≤ s →
          s ≤ 2 ^ (f.bitsPerSample - 1) - 1 →
          -(((2 : ℚ) ^ (f.bitsPerSample - 1)) /
              ((2 ^ (f.bitsPerSample - 1) - 1 : ℕ) : ℚ)) ≤
            (s : ℚ) / ((2 ^ (f.bitsPerSample - 1) - 1 : ℕ) : ℚ) ∧
          (s : ℚ) / ((2 ^ (f.bitsPerSample - 1) - 1 : ℕ) : ℚ) ≤ 1)) ∧
    (∀ vs, f.samples = .float vs → load_audio_waveform f = .ok (vs, 16000)) := by
  have hload : load_audio_waveform f =
      .ok ((match f.samples with
            | .float vs => vs
            | .int vs =>
              vs.map (fun s : ℤ => (s : ℚ) / (maxIntVal f.bitsPerSample : ℚ))),
           16000) := by
    unfold load_audio_waveform
    simp [hr, hc]
  constructor
  · intro vs hvs
    constructor
    · rw [hload, hvs]
      rfl
    · intro hb s _ hlo hhi
      have hone : 1 ≤ 2 ^ (f.bitsPerSample - 1) := Nat.one_le_two_pow
      have hcast : ((2 ^ (f.bitsPerSample - 1) - 1 : ℕ) : ℚ) =
          (2 : ℚ) ^ (f.bitsPerSample - 1) - 1 := by
        rw [Nat.cast_sub hone, Nat.cast_pow, Nat.cast_ofNat, Nat.cast_one]
      have htwo : (2 : ℚ) ≤ (2 : ℚ) ^ (f.bitsPerSample - 1) := by
        calc (2 : ℚ) = 2 ^ 1 := (pow_one 2).symm
        _ ≤ 2 ^ (f.bitsPerSample - 1) := by
            apply pow_le_pow_right₀ (by norm_num)
            omega
      have hMpos : (0 : ℚ) < (2 : ℚ) ^ (f.bitsPerSample - 1) - 1 := by linarith
      rw [hcast]
      have hloQ : -((2 : ℚ) ^ (f.bitsPerSample - 1)) ≤ (s : ℚ) := by
        exact_mod_cast hlo
      have hhiQ : (s : ℚ) ≤ (2 : ℚ) ^ (f.bitsPerSample - 1) - 1 := by
        exact_mod_cast hhi
      constructor
      · rw [← neg_div]
        exact (div_le_div_iff_of_pos_right hMpos).mpr hloQ
      · exact (div_le_one hMpos).mpr hhiQ
  · intro vs hvs
    rw [hload, hvs]

/-- Witness for C3: a 16-bit mono 16 kHz integer PCM file with one
near-full-scale positive and one most-negative sample; the scaling and
bound conclusions hold there. -/
theorem pcm_scaling_witness :
    (load_audio_waveform
        { channels := 1, sampleRate := 16000, bitsPerSample := 16,
          samples := .int [16383, -32768] } =
      .ok ([16383, -32768].map
            (fun s : ℤ => (s : ℚ) / ((2 ^ (16 - 1) - 1 : ℕ) : ℚ)), 16000)) ∧
    ((16383 : ℚ) / ((2 ^ (16 - 1) - 1 : ℕ) : ℚ) ≤ 1) := by
  have h := pcm_scaling
    { channels := 1, sampleRate := 16000, bitsPerSample := 16,
      samples := .int [16383, -32768] } rfl rfl
  have h1 := (h.1 [16383, -32768] rfl).1
  have h2 := ((h.1 [16383, -32768] rfl).2 (by decide) 16383 (by decide) (by decide)
    (by decide)).2
  exact ⟨h1, h2⟩

/-- C1: for an audio file whose sample rate is not 16000 or whose channel
count is not 1, `load_audio_waveform` fails fast with the
invalid-audio-format validation failure, and any run of the program on
such a file exits non-zero having performed no tensor or model work: no
tokenizer, config or model load, no transcription, no output write. -/
theorem invalid_audio_format_rejected (f : WavFile)
    (hbad : f.sampleRate ≠ 16000 ∨ f.channels ≠ 1) :
    (∃ m, load_audio_waveform f = .error (.invalidAudioFormat m)) ∧
    ∀ env : Env, ¬ env.args.length < 4 → env.openWav (env.args.getD 2 "") = .ok f →
      (mainRun env).exitCode ≠ 0 ∧
      ∀ e ∈ (mainRun env).events,
        e ≠ Event.loadTokenizer ∧ (∀ p, e ≠ .loadConfig p) ∧ (∀ p, e ≠ .loadModel p) ∧
        e ≠ .runTranscription ∧ ∀ p t, e ≠ .writeOutput p t := by
  have herr : ∃ m, load_audio_waveform f = .error (.invalidAudioFormat m) := by
    unfold load_audio_waveform
    by_cases hrate : f.sampleRate ≠ 16000
    · exact ⟨_, by rw [if_pos hrate]⟩
    · have hch : f.channels ≠ 1 := hbad.resolve_left hrate
      exact ⟨_, by rw [if_neg hrate, if_pos hch]⟩
  refine ⟨herr, ?_⟩
  intro env hlen hopen
  obtain ⟨m, hm⟩ := herr
  have hstage : audioStage env (env.args.getD 2 "") = .error (.invalidAudioFormat m) := by
    simp only [audioStage, hopen]
    exact hm
  constructor
  · simp only [mainRun, hlen, if_false]
    rw [hstage]
    simp
  · intro e he
    simp only [mainRun, hlen, if_false] at he
    rw [hstage] at he
    have he' : e = Event.printLn ("Loading waveform...") ∨
        e = Event.openAudio (env.args.getD 2 "") ∨ e = Event.eprintLn m := by
      simpa using he
    rcases he' with h | h | h <;> subst h <;>
      exact ⟨by simp, by simp, by simp, by simp, by simp⟩

/-- Witness for C1: the concrete 8 kHz file is rejected with the
invalid-audio-format failure and the concrete run on it exits non-zero. -/
theorem invalid_audio_format_rejected_witness :
    (∃ m, load_audio_waveform wavBadRate = .error (.invalidAudioFormat m)) ∧
    (mainRun envBadRate).exitCode ≠ 0 := by
  have h := invalid_audio_format_rejected wavBadRate (Or.inl (by decide))
  exact ⟨h.1, (h.2 envBadRate (by decide) rfl).1⟩

/-- C9: with fewer than three user-supplied command-line arguments
(`argv` length below 4) the program emits the usage message on standard
error and exits with status 1, its trace containing no file operation;
and arguments beyond the third never influence the run. -/
theorem usage_on_insufficient_args (env : Env) :
    (env.args.length < 4 →
      mainRun env =
        { events := [.eprintLn (usageMsg (env.args.getD 0 ""))], exitCode := 1 } ∧
      ∀ e ∈ (mainRun env).events, (∀ p, e ≠ .openAudio p) ∧ (∀ p, e ≠ .loadConfig p) ∧
        (∀ p, e ≠ .loadModel p) ∧ ∀ p t, e ≠ .writeOutput p t) ∧
    mainRun env = mainRun { env with args := env.args.take 4 } := by
  constructor
  · intro h
    have hmain : mainRun env =
        { events := [.eprintLn (usageMsg (env.args.getD 0 ""))], exitCode := 1 } := by
      unfold mainRun
      rw [if_pos h]
    refine ⟨hmain, ?_⟩
    intro e he
    rw [hmain] at he
    simp only [List.mem_singleton] at he
    subst he
    exact ⟨by simp, by simp, by simp, by simp⟩
  · by_cases h : env.args.length < 4
    · have h' : ({ env with args := env.args.take 4 } : Env).args.length < 4 := by
        simp only [List.length_take]
        omega
      have e0 : ({ env with args := env.args.take 4 } : Env).args.getD 0 "" =
          env.args.getD 0 "" := getD_take env.args 4 0 "" (by omega)
      unfold mainRun
      rw [if_pos h, if_pos h', e0]
    · have h' : ¬ ({ env with args := env.args.take 4 } : Env).args.length < 4 := by
        simp only [List.length_take]
        omega
      have e1 : ({ env with args := env.args.take 4 } : Env).args.getD 1 "" =
          env.args.getD 1 "" := getD_take env.args 4 1 "" (by omega)
      have e2 : ({ env with args := env.args.take 4 } : Env).args.getD 2 "" =
          env.args.getD 2 "" := getD_take env.args 4 2 "" (by omega)
      have e3 : ({ env with args := env.args.take 4 } : Env).args.getD 3 "" =
          env.args.getD 3 "" := getD_take env.args 4 3 "" (by omega)
      unfold mainRun
      rw [if_neg h, if_neg h', e1, e2, e3]
      rfl

/-- Witness for C9: the concrete one-argument run prints the usage
message and exits 1. -/
theorem usage_on_insufficient_args_witness :
    mainRun envUsage =
      { events := [.eprintLn (usageMsg ("prog"))], exitCode := 1 } :=
  ((usage_on_insufficient_args envUsage).1 (by decide)).1

/-- C10: every config-load in a run reads the path formed by appending
".cfg" to the model-name argument, and every weight-record load reads
the model-name path itself. -/
theorem config_and_weight_paths (env : Env) (p : String) :
    (Event.loadConfig p ∈ (mainRun env).events → p = env.args.getD 1 "" ++ ".cfg") ∧
    (Event.loadModel p ∈ (mainRun env).events → p = env.args.getD 1 "") := by
  constructor <;> intro hmem <;>
  · simp only [mainRun] at hmem
    split at hmem
    all_goals try split at hmem
    all_goals try split at hmem
    all_goals try split at hmem
    all_goals try split at hmem
    all_goals try split at hmem
    all_goals try split at hmem
    all_goals simpa using hmem

/-- Witness for C10: the concrete successful run loads the config from
"m.cfg" and the weights from "m". -/
theorem config_and_weight_paths_witness :
    (("m.cfg" : String) = ("m" : String) ++ (".cfg")) ∧
    (("m" : String) = ("m" : String)) :=
  ⟨(config_and_weight_paths envOK ("m.cfg")).1 (by decide),
   (config_and_weight_paths envOK ("m")).2 (by decide)⟩

/-- C2: the CLI transcription is atomic — whenever one of the five
pipeline stages (audio load, tokenizer load, config load, model load,
transcription) fails, the run exits non-zero with a diagnostic on
standard error and never writes to the output file; when all five succeed
and the file write succeeds, the run exits 0 having written the
transcription text verbatim to the output path. -/
theorem cli_transcription_atomic (env : Env) (hargs : ¬ env.args.length < 4) :
    (stagesOK env = false →
      (mainRun env).exitCode ≠ 0 ∧
      (∃ m, Event.eprintLn m ∈ (mainRun env).events) ∧
      ∀ p t, Event.writeOutput p t ∉ (mainRun env).events) ∧
    ∀ text toks, stagesOK env = true →
      transcribeStage env = .ok (text, toks) →
      env.writeFile (env.args.getD 3 "") text = .ok () →
      (mainRun env).exitCode = 0 ∧
      Event.writeOutput (env.args.getD 3 "") text ∈ (mainRun env).events := by
  cases h1 : audioStage env (env.args.getD 2 "") with
  | error e =>
    have hso : stagesOK env = false := by simp only [stagesOK, h1]
    refine ⟨fun _ => ?_, fun text toks hOK _ _ => by simp [hso] at hOK⟩
    cases e with
    | invalidAudioFormat m =>
      refine ⟨?_, ⟨m, ?_⟩, fun p t => ?_⟩ <;>
        simp only [mainRun, hargs, if_false, h1] <;> simp
    | hound m =>
      refine ⟨?_, ⟨"Failed to load audio file: " ++ m, ?_⟩, fun p t => ?_⟩ <;>
        simp only [mainRun, hargs, if_false, h1] <;> simp
  | ok wsr =>
    obtain ⟨w, sr⟩ := wsr
    cases h2 : env.tokenizer with
    | error e =>
      have hso : stagesOK env = false := by simp only [stagesOK, h1, h2]
      refine ⟨fun _ => ?_, fun text toks hOK _ _ => by simp [hso] at hOK⟩
      refine ⟨?_, ⟨"Failed to load tokenizer: " ++ e, ?_⟩, fun p t => ?_⟩ <;>
        simp only [mainRun, hargs, if_false, h1, h2] <;> simp
    | ok u =>
      cases h3 : env.loadConfig (env.args.getD 1 "" ++ ".cfg") with
      | error e =>
        have hso : stagesOK env = false := by simp only [stagesOK, h1, h2, h3]
        refine ⟨fun _ => ?_, fun text toks hOK _ _ => by simp [hso] at hOK⟩
        refine ⟨?_, ⟨"Failed to load whisper config: " ++ e, ?_⟩, fun p t => ?_⟩ <;>
          simp only [mainRun, hargs, if_false, h1, h2, h3] <;> simp
      | ok config =>
        cases h5 : load_whisper_model_file env config (env.args.getD 1 "") with
        | error e =>
          have hso : stagesOK env = false := by simp only [stagesOK, h1, h2, h3, h5]
          refine ⟨fun _ => ?_, fun text toks hOK _ _ => by simp [hso] at hOK⟩
          refine ⟨?_, ⟨"Failed to load whisper model file: " ++ e, ?_⟩, fun p t => ?_⟩ <;>
            simp only [mainRun, hargs, if_false, h1, h2, h3, h5] <;> simp
        | ok wmodel =>
          cases h6 : env.transcribe w sr with
          | error e =>
            have hso : stagesOK env = false := by
              simp only [stagesOK, h1, h2, h3, h5, h6]
            refine ⟨fun _ => ?_, fun text toks hOK _ _ => by simp [hso] at hOK⟩
            refine ⟨?_, ⟨"Error during transcription: " ++ e, ?_⟩, fun p t => ?_⟩ <;>
              simp only [mainRun, hargs, if_false, h1, h2, h3, h5, h6] <;> simp
          | ok r6 =>
            obtain ⟨text0, toks0⟩ := r6
            have hso : stagesOK env = true := by
              simp only [stagesOK, h1, h2, h3, h5, h6]
            refine ⟨fun hfail => by simp [hso] at hfail, ?_⟩
            intro text toks _ htr hw
            have htr' : text0 = text ∧ toks0 = toks := by
              simp only [transcribeStage, h1, h6, Except.ok.injEq, Prod.mk.injEq] at htr
              exact htr
            obtain ⟨ht0, _⟩ := htr'
            subst ht0
            constructor
            · simp only [mainRun, hargs, if_false, h1, h2, h3, h5, h6, hw]
            · simp only [mainRun, hargs, if_false, h1, h2, h3, h5, h6, hw]
              simp

/-- Witness for C2: the fully successful concrete run writes the text
and exits 0; the concrete run whose transcription stage fails exits
non-zero, prints a diagnostic, and writes nothing. -/
theorem cli_transcription_atomic_witness :
    ((mainRun envOK).exitCode = 0 ∧
      Event.writeOutput ("out.txt") ("hi") ∈ (mainRun envOK).events) ∧
    ((mainRun envBadTrans).exitCode ≠ 0 ∧
      (∃ m, Event.eprintLn m ∈ (mainRun envBadTrans).events) ∧
      ∀ p t, Event.writeOutput p t ∉ (mainRun envBadTrans).events) := by
  constructor
  · exact (cli_transcription_atomic envOK (by decide)).2 ("hi") [50257] (by decide)
      rfl rfl
  · exact (cli_transcription_atomic envBadTrans (by decide)).1 (by decide)
